import Mathlib

/-!
Verification of the node-replication benchmark harness.

Shallow embedding of the benchmark-side code of the repository:
`bench_utils/src/benchmark.rs` (the minimal measurement harness and the
mean / standard-deviation statistics), `benches/hashmap.rs` (the replicated
hash-map workload and its operation generator) and `benches/synthetic.rs`
(the abstract cache-line data structure and its operation generator).

Modelling conventions:
* Rust `usize` / `u64` values are modelled as `Nat` (no claim below depends
  on wrap-around behaviour).
* `Duration` values are modelled as their millisecond count (`Nat`).
* `f64` arithmetic in the statistics functions is modelled as exact
  arithmetic (`ℚ` for the closed-form parts, `Real.sqrt` for `f64::sqrt`).
* A pseudo-random generator call is modelled by passing the raw entropy
  draw it consumes as an explicit argument; `gen_range(0, span)` and
  `ZipfDistribution::sample` reduce the raw draw into the range that the
  `rand` / `zipf` crates document (`[0, span)` resp. `[1, span]`).
* A Rust panic (a failed `assert!` / `debug_assert!` / `unwrap`) and a
  Rust `Result` are modelled with `Option` / `Except`: `none` is a fault.
-/

/-- Modelled from the spec: `utils::Operation`, the tagged union with exactly
the two variants `ReadOperation(R)` and `WriteOperation(W)` (the `utils`
module itself is not among the provided sources; spec section 3 fixes its
shape). -/
inductive Operation (R W : Type) where
  | ReadOperation (op : R)
  | WriteOperation (op : W)
deriving DecidableEq

namespace BenchUtils

/-- Source `Bencher` (benchmark.rs): the fixed measurement duration in milliseconds
and the accumulated iteration count. -/
structure Bencher where
  measurement_time : Nat
  iterations : Nat
deriving DecidableEq

/-- Source `Bencher::new(duration)`: fresh bencher with zero iterations. -/
def Bencher.new (duration : Nat) : Bencher :=
  { measurement_time := duration, iterations := 0 }

/-- Source `Bencher::iter(routine)`: invoke the routine once and add its returned
operation count to the accumulated iterations. -/
def Bencher.iter (b : Bencher) (routine : Unit → Nat) : Bencher :=
  { b with iterations := b.iterations + routine () }

/-- Source `Bencher::iter_custom(routine)`: invoke the routine once with the
measurement duration; its result replaces the iteration count. -/
def Bencher.iter_custom (b : Bencher) (routine : Nat → Nat) : Bencher :=
  { b with iterations := routine b.measurement_time }

/-- Source `TestHarness` (benchmark.rs): process-wide measurement duration in
milliseconds. -/
structure TestHarness where
  duration : Nat
deriving DecidableEq

/-- Source `TestHarness::new(d)`; `smokebench` is the `cfg!(feature = "smokebench")`
build-time flag, under which the duration is forced to 500 ms. -/
def TestHarness.new (smokebench : Bool) (d : Nat) : TestHarness :=
  if smokebench then { duration := 500 } else { duration := d }

/-- Source `TestHarness::default()`: 500 ms under smokebench, otherwise 5 seconds. -/
def TestHarness.default (smokebench : Bool) : TestHarness :=
  if smokebench then TestHarness.new smokebench 500
  else TestHarness.new smokebench 5000

/-- Source `mean(data)` (benchmark.rs): arithmetic mean of the samples, `none` for an
empty slice.  `f64` is modelled as `ℚ`. -/
def mean (data : List Nat) : Option ℚ :=
  let sum : ℚ := (data.sum : ℚ)
  let count : Nat := data.length
  if 0 < count then some (sum / (count : ℚ)) else none

/-- Source `std_deviation(data)` (benchmark.rs): square root of the population
variance around `mean(data)`, `none` for an empty slice.  `f64::sqrt` is
modelled as `Real.sqrt`. -/
noncomputable def std_deviation (data : List Nat) : Option ℝ :=
  match mean data, data.length with
  | some data_mean, count =>
      if 0 < count then
        let variance : ℚ :=
          ((data.map (fun (value : Nat) =>
            let diff : ℚ := data_mean - (value : ℚ)
            diff * diff)).sum) / (count : ℚ)
        some (Real.sqrt (variance : ℝ))
      else none
  | none, _ => none

/-- The list of squared deviations from the mean that `std_deviation` sums:
the image of the source's `|value| { let diff = data_mean - value; diff * diff }`
closure at `data_mean = mean(data)`. -/
def sqDiffs (data : List Nat) : List ℚ :=
  data.map (fun (value : Nat) =>
    let diff : ℚ := (data.sum : ℚ) / (data.length : ℚ) - (value : ℚ)
    diff * diff)

end BenchUtils

namespace Hashmap

/-- Source `OpWr` (hashmap.rs): add an item to the hash-map. -/
inductive OpWr where
  | Put (key : Nat) (val : Nat)
deriving DecidableEq

/-- Source `OpRd` (hashmap.rs): get an item from the hash-map. -/
inductive OpRd where
  | Get (key : Nat)
deriving DecidableEq

/-- Source `NrHashMap` (hashmap.rs).  The std `HashMap<u64, u64>` backing store is
modelled as an association list where the most recent insertion for a key
shadows older ones, which is exactly the observable insert/get contract. -/
structure NrHashMap where
  storage : List (Nat × Nat)
deriving DecidableEq

/-- Source `NrHashMap::put`: `storage.insert(key, val)`. -/
def NrHashMap.put (m : NrHashMap) (key val : Nat) : NrHashMap :=
  { m with storage := (key, val) :: m.storage }

/-- Source `NrHashMap::get`: `storage.get(&key).map(|v| *v)`. -/
def NrHashMap.get (m : NrHashMap) (key : Nat) : Option Nat :=
  (m.storage.find? (fun kv => kv.fst == key)).map (fun kv => kv.snd)

/-- Source `Dispatch::dispatch` for `NrHashMap`: reads never hit the error branch. -/
def dispatch (m : NrHashMap) (op : OpRd) : Except Unit (Option Nat) :=
  match op with
  | OpRd.Get key => Except.ok (m.get key)

/-- Source `Dispatch::dispatch_mut` for `NrHashMap`: the mutated map together with
the response; a `Put` always answers `Ok(None)`. -/
def dispatch_mut (m : NrHashMap) (op : OpWr) : NrHashMap × Except Unit (Option Nat) :=
  match op with
  | OpWr.Put key val => (m.put key val, Except.ok none)

/-- Model of `ZipfDistribution::new(span, 1.03).unwrap().sample(rng)`: external crate
contract, a draw from `[1, span]`; the raw entropy draw is reduced into that
range. -/
def zipfSample (span : Nat) (raw : Nat) : Nat := raw % span + 1

/-- Model of `rng.gen_range(0, span)`: external crate contract, a uniform draw from
`[0, span)`; the raw entropy draw is reduced into that range. -/
def genRange (span : Nat) (raw : Nat) : Nat := raw % span

/-- Source `generate_operation` (hashmap.rs).  `keyRaw`, `decRaw` and `valRaw` are
the raw draws consumed by the key sample, the `rng.gen::<usize>()` read/write
decision and the `rng.next_u64()` fresh value.  The `assert!` on the
distribution string and the `unwrap` of `ZipfDistribution::new` (which fails
exactly when `span = 0`) are the fault cases. -/
def generate_operation (keyRaw decRaw valRaw : Nat) (writePct span : Nat)
    (distribution : String) : Option (Operation OpRd OpWr) :=
  if distribution = "skewed" ∨ distribution = "uniform" then
    if 0 < span then
      let skewed := distribution = "skewed"
      let id := if skewed then zipfSample span keyRaw else genRange span keyRaw
      if decRaw % 100 < writePct then
        some (Operation.WriteOperation (OpWr.Put id valRaw))
      else
        some (Operation.ReadOperation (OpRd.Get id))
    else none
  else none

end Hashmap

namespace Synthetic

/-- Source `OpRd` (synthetic.rs): read a bunch of local memory. -/
inductive OpRd where
  | ReadOnly (tid : Nat) (r1 : Nat) (r2 : Nat)
deriving DecidableEq

/-- Source `OpWr` (synthetic.rs): write, or read-then-write, local memory. -/
inductive OpWr where
  | WriteOnly (tid : Nat) (r1 : Nat) (r2 : Nat)
  | ReadWrite (tid : Nat) (r1 : Nat) (r2 : Nat)
deriving DecidableEq

/-- Source `AbstractDataStructure` (synthetic.rs).  `storage` is the backing vector
of `n` cache-padded cells, cell `i` initialised to `i`. -/
structure AbstractDataStructure where
  n : Nat
  cold_reads : Nat
  cold_writes : Nat
  hot_reads : Nat
  hot_writes : Nat
  storage : List Nat
deriving DecidableEq

/-- Source `MAX_BUFFER_SIZE` (synthetic.rs). -/
def MAX_BUFFER_SIZE : Nat := 400000

/-- Source `AbstractDataStructure::new`: the four `debug_assert!` checks are the
fault cases; on success the backing storage is `0, 1, …, n-1`. -/
def AbstractDataStructure.new (n cold_reads cold_writes hot_reads hot_writes : Nat) :
    Option AbstractDataStructure :=
  if hot_reads + cold_writes < n then
    if hot_reads + cold_reads < n then
      if hot_writes < hot_reads then
        if n < MAX_BUFFER_SIZE then
          some { n := n, cold_reads := cold_reads, cold_writes := cold_writes,
                 hot_reads := hot_reads, hot_writes := hot_writes,
                 storage := List.range n }
        else none
      else none
    else none
  else none

/-- Source `Default for AbstractDataStructure`: `new(200_000, 20, 5, 2, 1)`. -/
def AbstractDataStructure.default : Option AbstractDataStructure :=
  AbstractDataStructure.new 200000 20 5 2 1

/-- The hot cache-line indices touched by `read` and `write`: for
`i in rnd2 .. rnd2 + hot_writes`, index `i % hot_reads`. -/
def hotIndices (ds : AbstractDataStructure) (rnd2 : Nat) : List Nat :=
  (List.range ds.hot_writes).map (fun i => (rnd2 + i) % ds.hot_reads)

/-- The cold stride indices: starting from `b = rnd1 * tid`, each iteration
touches `b % modulus + offset` and then advances `b` by the stride `rnd2`
(`modulus = n - hot_reads`, `offset = hot_reads` at the call sites). -/
def coldIndices (count b stride modulus offset : Nat) : List Nat :=
  match count with
  | 0 => []
  | c + 1 => (b % modulus + offset) :: coldIndices c (b + stride) stride modulus offset

/-- Every storage index `AbstractDataStructure::read(tid, rnd1, rnd2)`
accesses, in access order. -/
def readIndices (ds : AbstractDataStructure) (tid rnd1 rnd2 : Nat) : List Nat :=
  hotIndices ds rnd2 ++
    coldIndices ds.cold_reads (rnd1 * tid) rnd2 (ds.n - ds.hot_reads) ds.hot_reads

/-- Every storage index `AbstractDataStructure::write(tid, rnd1, rnd2)`
accesses, in access order. -/
def writeIndices (ds : AbstractDataStructure) (tid rnd1 rnd2 : Nat) : List Nat :=
  hotIndices ds rnd2 ++
    coldIndices ds.cold_writes (rnd1 * tid) rnd2 (ds.n - ds.hot_reads) ds.hot_reads

/-- Source `AbstractDataStructure::read`: sum the storage cells at the hot indices
and then at the cold stride indices. -/
def AbstractDataStructure.read (ds : AbstractDataStructure) (tid rnd1 rnd2 : Nat) : Nat :=
  (readIndices ds tid rnd1 rnd2).foldl (fun sum index => sum + ds.storage.getD index 0) 0

/-- Source `AbstractDataStructure::write`: overwrite the storage cells at the hot
indices and then at the cold stride indices with `tid`; the response is 0. -/
def AbstractDataStructure.write (ds : AbstractDataStructure) (tid rnd1 rnd2 : Nat) :
    AbstractDataStructure × Nat :=
  ({ ds with storage :=
      (writeIndices ds tid rnd1 rnd2).foldl (fun st index => st.set index tid) ds.storage },
   0)

/-- The three operation kinds of the synthetic workload. -/
inductive OpKind where
  | readOnlyKind
  | writeOnlyKind
  | readWriteKind
deriving DecidableEq

/-- The kind of a generated synthetic operation. -/
def kindOf : Operation OpRd OpWr → OpKind
  | Operation.ReadOperation (OpRd.ReadOnly _ _ _) => OpKind.readOnlyKind
  | Operation.WriteOperation (OpWr.WriteOnly _ _ _) => OpKind.writeOnlyKind
  | Operation.WriteOperation (OpWr.ReadWrite _ _ _) => OpKind.readWriteKind

/-- Whether a kind is enabled by the `(readonly, writeonly, readwrite)` mask. -/
def kindEnabled (k : OpKind) (readonly writeonly readwrite : Bool) : Bool :=
  match k with
  | OpKind.readOnlyKind => readonly
  | OpKind.writeOnlyKind => writeonly
  | OpKind.readWriteKind => readwrite

/-- How many kinds the `(readonly, writeonly, readwrite)` mask enables. -/
def enabledCount (readonly writeonly readwrite : Bool) : Nat :=
  (if readonly then 1 else 0) + (if writeonly then 1 else 0) +
    (if readwrite then 1 else 0)

/-- Source `generate_operation` (synthetic.rs).  `opRaw` is the draw of
`rng.gen::<usize>()` selecting the operation kind, `a` and `b` the two
payload draws; the all-disabled mask is the `panic!` fault case.  (In the
source the kind selector is matched against `op % 3` resp. `op % 2`, whose
value 2 resp. 1 falls to the final listed arm; the `unreachable!` arms are
dead.) -/
def generate_operation (opRaw a b tid : Nat)
    (readonly writeonly readwrite : Bool) : Option (Operation OpRd OpWr) :=
  match readonly, writeonly, readwrite with
  | true, true, true =>
    match opRaw % 3 with
    | 0 => some (Operation.ReadOperation (OpRd.ReadOnly tid a b))
    | 1 => some (Operation.WriteOperation (OpWr.WriteOnly tid a b))
    | _ => some (Operation.WriteOperation (OpWr.ReadWrite tid a b))
  | false, true, true =>
    match opRaw % 2 with
    | 0 => some (Operation.WriteOperation (OpWr.WriteOnly tid a b))
    | _ => some (Operation.WriteOperation (OpWr.ReadWrite tid a b))
  | true, true, false =>
    match opRaw % 2 with
    | 0 => some (Operation.ReadOperation (OpRd.ReadOnly tid a b))
    | _ => some (Operation.WriteOperation (OpWr.WriteOnly tid a b))
  | true, false, true =>
    match opRaw % 2 with
    | 0 => some (Operation.ReadOperation (OpRd.ReadOnly tid a b))
    | _ => some (Operation.WriteOperation (OpWr.ReadWrite tid a b))
  | true, false, false => some (Operation.ReadOperation (OpRd.ReadOnly tid a b))
  | false, true, false => some (Operation.WriteOperation (OpWr.WriteOnly tid a b))
  | false, false, true => some (Operation.WriteOperation (OpWr.ReadWrite tid a b))
  | false, false, false => none

end Synthetic

/-- Claim C8: under the smokebench build configuration `TestHarness::new`
yields a 500 ms duration for every requested duration; outside it the
duration equals the request; `TestHarness::default()` yields 5 seconds
(5000 ms), and 500 ms under smokebench. -/
theorem claim_c8_testharness_duration (d : Nat) :
    (BenchUtils.TestHarness.new true d).duration = 500 ∧
    (BenchUtils.TestHarness.new false d).duration = d ∧
    (BenchUtils.TestHarness.default true).duration = 500 ∧
    (BenchUtils.TestHarness.default false).duration = 5000 :=
  ⟨rfl, rfl, rfl, rfl⟩

/-- Claim C9: a fresh `Bencher` starts with an iteration count of zero;
`iter` invokes its routine once and adds the result to the accumulated
count; `iter_custom` invokes its routine once with the measurement duration
and replaces the count with the result. -/
theorem claim_c9_bencher_iterations (d : Nat) (bch : BenchUtils.Bencher)
    (routine : Unit → Nat) (custom : Nat → Nat) :
    (BenchUtils.Bencher.new d).iterations = 0 ∧
    (bch.iter routine).iterations = bch.iterations + routine () ∧
    (bch.iter routine).measurement_time = bch.measurement_time ∧
    (bch.iter_custom custom).iterations = custom bch.measurement_time ∧
    (bch.iter_custom custom).measurement_time = bch.measurement_time :=
  ⟨rfl, rfl, rfl, rfl, rfl⟩

/-- Claim C10: `NrHashMap::dispatch` and `NrHashMap::dispatch_mut` always
return `Ok` (the error branch is unreachable); in particular a `Put` always
answers `Ok(None)`, never the previous value stored at the key, and a `Get`
answers the stored value. -/
theorem claim_c10_hashmap_dispatch_ok (m : Hashmap.NrHashMap)
    (rop : Hashmap.OpRd) (wop : Hashmap.OpWr) (key val : Nat) :
    (∃ r, Hashmap.dispatch m rop = Except.ok r) ∧
    (Hashmap.dispatch_mut m wop).2 = Except.ok none ∧
    Hashmap.dispatch m (Hashmap.OpRd.Get key) = Except.ok (m.get key) ∧
    (Hashmap.dispatch_mut m (Hashmap.OpWr.Put key val)).2 = Except.ok none := by
  refine ⟨?_, ?_, rfl, rfl⟩
  · cases rop with
    | Get k => exact ⟨m.get k, rfl⟩
  · cases wop with
    | Put k v => rfl

/-- Claim C2: `AbstractDataStructure` construction faults whenever
`hot_writes ≥ hot_reads`, or `hot_reads + cold_writes ≥ n`, or
`hot_reads + cold_reads ≥ n`; and any structure it does produce satisfies
all three strict relations. -/
theorem claim_c2_construction_validation (n cr cw hr hw : Nat) :
    ((hr ≤ hw ∨ n ≤ hr + cw ∨ n ≤ hr + cr) →
      Synthetic.AbstractDataStructure.new n cr cw hr hw = none) ∧
    (∀ ds, Synthetic.AbstractDataStructure.new n cr cw hr hw = some ds →
      hw < hr ∧ hr + cw < n ∧ hr + cr < n) := by
  constructor
  · intro h
    unfold Synthetic.AbstractDataStructure.new
    split_ifs with h1 h2 h3 h4 <;> first | (exfalso; omega) | rfl
  · intro ds hds
    unfold Synthetic.AbstractDataStructure.new at hds
    split_ifs at hds with h1 h2 h3 h4
    exact ⟨h3, h1, h2⟩

/-- Witness for claim C2 at a concrete violating input: `hot_writes = 5`
is not below `hot_reads = 2`, so construction faults. -/
theorem claim_c2_witness :
    Synthetic.AbstractDataStructure.new 10 0 0 2 5 = none :=
  (claim_c2_construction_validation 10 0 0 2 5).1 (Or.inl (by decide))

/-- Claim C6: the hash-map workload generator faults on every distribution
string other than exactly "uniform" or "skewed". -/
theorem claim_c6_hashmap_generator_distribution_fault
    (keyRaw decRaw valRaw writePct span : Nat) (distribution : String)
    (h1 : distribution ≠ "uniform") (h2 : distribution ≠ "skewed") :
    Hashmap.generate_operation keyRaw decRaw valRaw writePct span distribution = none := by
  unfold Hashmap.generate_operation
  rw [if_neg]
  rintro (h | h)
  · exact h2 h
  · exact h1 h

/-- Witness for claim C6 at the concrete distribution string "zipfian". -/
theorem claim_c6_witness :
    Hashmap.generate_operation 1 2 3 10 100 "zipfian" = none :=
  claim_c6_hashmap_generator_distribution_fault 1 2 3 10 100 "zipfian"
    (by decide) (by decide)

/-- Claim C5: with a positive key span, the hash-map generator decides read
versus write by the draw `decRaw % 100`, which lies in `[0, 100)`: below the
write ratio it yields `Put` of the drawn key with the freshly drawn value,
at or above it yields `Get` of the drawn key; under "uniform" the drawn key
`genRange span keyRaw` lies in `[0, span)`. -/
theorem claim_c5_hashmap_generator_uniform
    (keyRaw decRaw valRaw writePct span : Nat) (hspan : 0 < span) :
    decRaw % 100 < 100 ∧
    Hashmap.genRange span keyRaw < span ∧
    (decRaw % 100 < writePct →
      Hashmap.generate_operation keyRaw decRaw valRaw writePct span "uniform" =
        some (Operation.WriteOperation
          (Hashmap.OpWr.Put (Hashmap.genRange span keyRaw) valRaw))) ∧
    (writePct ≤ decRaw % 100 →
      Hashmap.generate_operation keyRaw decRaw valRaw writePct span "uniform" =
        some (Operation.ReadOperation
          (Hashmap.OpRd.Get (Hashmap.genRange span keyRaw)))) := by
  refine ⟨Nat.mod_lt _ (by omega), Nat.mod_lt _ hspan, ?_, ?_⟩
  · intro h
    unfold Hashmap.generate_operation
    rw [if_pos (Or.inr rfl), if_pos hspan]
    simp only []
    rw [if_neg (show ¬("uniform" : String) = "skewed" by decide), if_pos h]
  · intro h
    unfold Hashmap.generate_operation
    rw [if_pos (Or.inr rfl), if_pos hspan]
    simp only []
    rw [if_neg (show ¬("uniform" : String) = "skewed" by decide),
        if_neg (by omega)]

/-- Witness for claim C5 at keyRaw 7, decRaw 205, valRaw 9, write ratio 10,
span 100: the decision draw is 5, below 10, so a Put of key 7 is produced. -/
theorem claim_c5_witness :
    205 % 100 < 100 ∧
    Hashmap.genRange 100 7 < 100 ∧
    (205 % 100 < 10 →
      Hashmap.generate_operation 7 205 9 10 100 "uniform" =
        some (Operation.WriteOperation
          (Hashmap.OpWr.Put (Hashmap.genRange 100 7) 9))) ∧
    (10 ≤ 205 % 100 →
      Hashmap.generate_operation 7 205 9 10 100 "uniform" =
        some (Operation.ReadOperation
          (Hashmap.OpRd.Get (Hashmap.genRange 100 7)))) :=
  claim_c5_hashmap_generator_uniform 7 205 9 10 100 (by decide)

/-- With all three kinds enabled the synthetic generator depends on its kind
draw only through `opRaw % 3`. -/
theorem synthetic_gen_ttt_mod (x a b tid : Nat) :
    Synthetic.generate_operation x a b tid true true true =
    Synthetic.generate_operation (x % 3) a b tid true true true := by
  rcases (show x % 3 = 0 ∨ x % 3 = 1 ∨ x % 3 = 2 by omega) with h | h | h <;>
    simp [Synthetic.generate_operation, h]

/-- With writeonly and readwrite enabled the synthetic generator depends on
its kind draw only through `opRaw % 2`. -/
theorem synthetic_gen_ftt_mod (x a b tid : Nat) :
    Synthetic.generate_operation x a b tid false true true =
    Synthetic.generate_operation (x % 2) a b tid false true true := by
  rcases (show x % 2 = 0 ∨ x % 2 = 1 by omega) with h | h <;>
    simp [Synthetic.generate_operation, h]

/-- With readonly and writeonly enabled the synthetic generator depends on
its kind draw only through `opRaw % 2`. -/
theorem synthetic_gen_ttf_mod (x a b tid : Nat) :
    Synthetic.generate_operation x a b tid true true false =
    Synthetic.generate_operation (x % 2) a b tid true true false := by
  rcases (show x % 2 = 0 ∨ x % 2 = 1 by omega) with h | h <;>
    simp [Synthetic.generate_operation, h]

/-- With readonly and readwrite enabled the synthetic generator depends on
its kind draw only through `opRaw % 2`. -/
theorem synthetic_gen_tft_mod (x a b tid : Nat) :
    Synthetic.generate_operation x a b tid true false true =
    Synthetic.generate_operation (x % 2) a b tid true false true := by
  rcases (show x % 2 = 0 ∨ x % 2 = 1 by omega) with h | h <;>
    simp [Synthetic.generate_operation, h]

/-- Claim C7: with at least one kind enabled the synthetic variant generator
returns an operation whose kind is enabled by the mask, the choice depends on
the kind draw only modulo the number of enabled kinds, and among those
residues every enabled kind is produced by exactly one residue (the split is
as even as possible); with all three kinds disabled, generation is a fault. -/
theorem claim_c7_synthetic_generator_mask (opRaw a b tid : Nat) (ro wo rw : Bool) :
    (ro = false → wo = false → rw = false →
      Synthetic.generate_operation opRaw a b tid ro wo rw = none) ∧
    ((ro || wo || rw) = true →
      ∃ op, Synthetic.generate_operation opRaw a b tid ro wo rw = some op ∧
        Synthetic.kindEnabled (Synthetic.kindOf op) ro wo rw = true ∧
        Synthetic.generate_operation opRaw a b tid ro wo rw =
          Synthetic.generate_operation (opRaw % Synthetic.enabledCount ro wo rw)
            a b tid ro wo rw ∧
        ∀ k, Synthetic.kindEnabled k ro wo rw = true →
          ((List.range (Synthetic.enabledCount ro wo rw)).countP
            (fun j => decide ((Synthetic.generate_operation j a b tid ro wo rw).map
              Synthetic.kindOf = some k))) = 1) := by
  cases ro <;> cases wo <;> cases rw
  · -- false false false
    exact ⟨fun _ _ _ => rfl, fun hmask => absurd hmask (by decide)⟩
  · -- false false true
    refine ⟨fun _ _ h3 => absurd h3 (by decide), fun _ => ?_⟩
    refine ⟨Operation.WriteOperation (Synthetic.OpWr.ReadWrite tid a b), rfl, rfl, rfl, ?_⟩
    intro k hk
    cases k
    · exact absurd hk (by decide)
    · exact absurd hk (by decide)
    · simp [Synthetic.enabledCount, Synthetic.generate_operation, Synthetic.kindOf, List.range_succ, List.countP_append, List.countP_cons]
  · -- false true false
    refine ⟨fun _ h2 _ => absurd h2 (by decide), fun _ => ?_⟩
    refine ⟨Operation.WriteOperation (Synthetic.OpWr.WriteOnly tid a b), rfl, rfl, rfl, ?_⟩
    intro k hk
    cases k
    · exact absurd hk (by decide)
    · simp [Synthetic.enabledCount, Synthetic.generate_operation, Synthetic.kindOf, List.range_succ, List.countP_append, List.countP_cons]
    · exact absurd hk (by decide)
  · -- false true true
    refine ⟨fun _ h2 _ => absurd h2 (by decide), fun _ => ?_⟩
    rcases (show opRaw % 2 = 0 ∨ opRaw % 2 = 1 by omega) with h | h
    · refine ⟨Operation.WriteOperation (Synthetic.OpWr.WriteOnly tid a b),
        by simp [Synthetic.generate_operation, h], rfl,
        synthetic_gen_ftt_mod opRaw a b tid, ?_⟩
      intro k hk
      cases k
      · exact absurd hk (by decide)
      · simp [Synthetic.enabledCount, Synthetic.generate_operation, Synthetic.kindOf, List.range_succ, List.countP_append, List.countP_cons]
      · simp [Synthetic.enabledCount, Synthetic.generate_operation, Synthetic.kindOf, List.range_succ, List.countP_append, List.countP_cons]
    · refine ⟨Operation.WriteOperation (Synthetic.OpWr.ReadWrite tid a b),
        by simp [Synthetic.generate_operation, h], rfl,
        synthetic_gen_ftt_mod opRaw a b tid, ?_⟩
      intro k hk
      cases k
      · exact absurd hk (by decide)
      · simp [Synthetic.enabledCount, Synthetic.generate_operation, Synthetic.kindOf, List.range_succ, List.countP_append, List.countP_cons]
      · simp [Synthetic.enabledCount, Synthetic.generate_operation, Synthetic.kindOf, List.range_succ, List.countP_append, List.countP_cons]
  · -- true false false
    refine ⟨fun h1 _ _ => absurd h1 (by decide), fun _ => ?_⟩
    refine ⟨Operation.ReadOperation (Synthetic.OpRd.ReadOnly tid a b), rfl, rfl, rfl, ?_⟩
    intro k hk
    cases k
    · simp [Synthetic.enabledCount, Synthetic.generate_operation, Synthetic.kindOf, List.range_succ, List.countP_append, List.countP_cons]
    · exact absurd hk (by decide)
    · exact absurd hk (by decide)
  · -- true false true
    refine ⟨fun h1 _ _ => absurd h1 (by decide), fun _ => ?_⟩
    rcases (show opRaw % 2 = 0 ∨ opRaw % 2 = 1 by omega) with h | h
    · refine ⟨Operation.ReadOperation (Synthetic.OpRd.ReadOnly tid a b),
        by simp [Synthetic.generate_operation, h], rfl,
        synthetic_gen_tft_mod opRaw a b tid, ?_⟩
      intro k hk
      cases k
      · simp [Synthetic.enabledCount, Synthetic.generate_operation, Synthetic.kindOf, List.range_succ, List.countP_append, List.countP_cons]
      · exact absurd hk (by decide)
      · simp [Synthetic.enabledCount, Synthetic.generate_operation, Synthetic.kindOf, List.range_succ, List.countP_append, List.countP_cons]
    · refine ⟨Operation.WriteOperation (Synthetic.OpWr.ReadWrite tid a b),
        by simp [Synthetic.generate_operation, h], rfl,
        synthetic_gen_tft_mod opRaw a b tid, ?_⟩
      intro k hk
      cases k
      · simp [Synthetic.enabledCount, Synthetic.generate_operation, Synthetic.kindOf, List.range_succ, List.countP_append, List.countP_cons]
      · exact absurd hk (by decide)
      · simp [Synthetic.enabledCount, Synthetic.generate_operation, Synthetic.kindOf, List.range_succ, List.countP_append, List.countP_cons]
  · -- true true false
    refine ⟨fun h1 _ _ => absurd h1 (by decide), fun _ => ?_⟩
    rcases (show opRaw % 2 = 0 ∨ opRaw % 2 = 1 by omega) with h | h
    · refine ⟨Operation.ReadOperation (Synthetic.OpRd.ReadOnly tid a b),
        by simp [Synthetic.generate_operation, h], rfl,
        synthetic_gen_ttf_mod opRaw a b tid, ?_⟩
      intro k hk
      cases k
      · simp [Synthetic.enabledCount, Synthetic.generate_operation, Synthetic.kindOf, List.range_succ, List.countP_append, List.countP_cons]
      · simp [Synthetic.enabledCount, Synthetic.generate_operation, Synthetic.kindOf, List.range_succ, List.countP_append, List.countP_cons]
      · exact absurd hk (by decide)
    · refine ⟨Operation.WriteOperation (Synthetic.OpWr.WriteOnly tid a b),
        by simp [Synthetic.generate_operation, h], rfl,
        synthetic_gen_ttf_mod opRaw a b tid, ?_⟩
      intro k hk
      cases k
      · simp [Synthetic.enabledCount, Synthetic.generate_operation, Synthetic.kindOf, List.range_succ, List.countP_append, List.countP_cons]
      · simp [Synthetic.enabledCount, Synthetic.generate_operation, Synthetic.kindOf, List.range_succ, List.countP_append, List.countP_cons]
      · exact absurd hk (by decide)
  · -- true true true
    refine ⟨fun h1 _ _ => absurd h1 (by decide), fun _ => ?_⟩
    rcases (show opRaw % 3 = 0 ∨ opRaw % 3 = 1 ∨ opRaw % 3 = 2 by omega) with h | h | h
    · refine ⟨Operation.ReadOperation (Synthetic.OpRd.ReadOnly tid a b),
        by simp [Synthetic.generate_operation, h], rfl,
        synthetic_gen_ttt_mod opRaw a b tid, ?_⟩
      intro k hk
      cases k <;> simp [Synthetic.enabledCount, Synthetic.generate_operation, Synthetic.kindOf, List.range_succ, List.countP_append, List.countP_cons]
    · refine ⟨Operation.WriteOperation (Synthetic.OpWr.WriteOnly tid a b),
        by simp [Synthetic.generate_operation, h], rfl,
        synthetic_gen_ttt_mod opRaw a b tid, ?_⟩
      intro k hk
      cases k <;> simp [Synthetic.enabledCount, Synthetic.generate_operation, Synthetic.kindOf, List.range_succ, List.countP_append, List.countP_cons]
    · refine ⟨Operation.WriteOperation (Synthetic.OpWr.ReadWrite tid a b),
        by simp [Synthetic.generate_operation, h], rfl,
        synthetic_gen_ttt_mod opRaw a b tid, ?_⟩
      intro k hk
      cases k <;> simp [Synthetic.enabledCount, Synthetic.generate_operation, Synthetic.kindOf, List.range_succ, List.countP_append, List.countP_cons]

/-- Witness for claim C7 at the concrete all-disabled mask: generation
faults. -/
theorem claim_c7_witness :
    Synthetic.generate_operation 5 7 9 1 false false false = none :=
  (claim_c7_synthetic_generator_mask 5 7 9 1 false false false).1 rfl rfl rfl

/-- Every hot cache-line index is below `hot_reads` (when `hot_reads` is
positive, as construction guarantees). -/
theorem synthetic_mem_hotIndices_lt (ds : Synthetic.AbstractDataStructure)
    (rnd2 x : Nat) (hpos : 0 < ds.hot_reads)
    (hx : x ∈ Synthetic.hotIndices ds rnd2) : x < ds.hot_reads := by
  simp only [Synthetic.hotIndices, List.mem_map, List.mem_range] at hx
  obtain ⟨i, _, rfl⟩ := hx
  exact Nat.mod_lt _ hpos

/-- Every cold stride index is below `modulus + offset` (when the modulus is
positive, as construction guarantees). -/
theorem synthetic_mem_coldIndices_lt (count b stride modulus offset x : Nat)
    (hm : 0 < modulus)
    (hx : x ∈ Synthetic.coldIndices count b stride modulus offset) :
    x < modulus + offset := by
  induction count generalizing b with
  | zero => simp [Synthetic.coldIndices] at hx
  | succ c ih =>
    simp only [Synthetic.coldIndices] at hx
    rcases List.mem_cons.mp hx with h | h
    · have := Nat.mod_lt b hm
      omega
    · exact ih (b + stride) h

/-- Claim C1: for the structure built by `AbstractDataStructure::default()`
(n = 200000, cold_reads = 20, cold_writes = 5, hot_reads = 2,
hot_writes = 1), every invocation of `read(tid, rnd1, rnd2)` and
`write(tid, rnd1, rnd2)` accesses only storage indices in `[0, n)` (the
backing storage having exactly `n` cells), and both are deterministic:
identical arguments on identical states give identical results. -/
theorem claim_c1_default_read_write_bounds (tid rnd1 rnd2 : Nat)
    (ds : Synthetic.AbstractDataStructure)
    (hds : Synthetic.AbstractDataStructure.default = some ds) :
    (∀ index ∈ Synthetic.readIndices ds tid rnd1 rnd2, index < ds.n) ∧
    (∀ index ∈ Synthetic.writeIndices ds tid rnd1 rnd2, index < ds.n) ∧
    ds.storage.length = ds.n ∧
    ds.read tid rnd1 rnd2 = ds.read tid rnd1 rnd2 ∧
    ds.write tid rnd1 rnd2 = ds.write tid rnd1 rnd2 := by
  have hsome : Synthetic.AbstractDataStructure.default =
      some { n := 200000, cold_reads := 20, cold_writes := 5, hot_reads := 2,
             hot_writes := 1, storage := List.range 200000 } := rfl
  rw [hsome] at hds
  obtain rfl := Option.some.inj hds
  refine ⟨?_, ?_, by simp, rfl, rfl⟩
  · intro index hmem
    simp only [Synthetic.readIndices] at hmem
    rcases List.mem_append.mp hmem with h | h
    · have h2 := synthetic_mem_hotIndices_lt _ _ _ (by decide) h
      have h3 : index < 2 := h2
      show index < 200000
      omega
    · have h2 := synthetic_mem_coldIndices_lt _ _ _ _ _ _ (by decide) h
      have h3 : index < 199998 + 2 := h2
      show index < 200000
      omega
  · intro index hmem
    simp only [Synthetic.writeIndices] at hmem
    rcases List.mem_append.mp hmem with h | h
    · have h2 := synthetic_mem_hotIndices_lt _ _ _ (by decide) h
      have h3 : index < 2 := h2
      show index < 200000
      omega
    · have h2 := synthetic_mem_coldIndices_lt _ _ _ _ _ _ (by decide) h
      have h3 : index < 199998 + 2 := h2
      show index < 200000
      omega

/-- Witness for claim C1 at the in-particular inputs
`read(1, 3, 4)` / `write(1, 3, 4)` on the concrete default structure. -/
theorem claim_c1_witness :
    (∀ index ∈ Synthetic.readIndices
        { n := 200000, cold_reads := 20, cold_writes := 5, hot_reads := 2,
          hot_writes := 1, storage := List.range 200000 } 1 3 4,
      index < 200000) ∧
    (∀ index ∈ Synthetic.writeIndices
        { n := 200000, cold_reads := 20, cold_writes := 5, hot_reads := 2,
          hot_writes := 1, storage := List.range 200000 } 1 3 4,
      index < 200000) ∧
    ({ n := 200000, cold_reads := 20, cold_writes := 5, hot_reads := 2,
       hot_writes := 1, storage := List.range 200000 } :
        Synthetic.AbstractDataStructure).storage.length =
      ({ n := 200000, cold_reads := 20, cold_writes := 5, hot_reads := 2,
         hot_writes := 1, storage := List.range 200000 } :
          Synthetic.AbstractDataStructure).n ∧
    Synthetic.AbstractDataStructure.read
        { n := 200000, cold_reads := 20, cold_writes := 5, hot_reads := 2,
          hot_writes := 1, storage := List.range 200000 } 1 3 4 =
      Synthetic.AbstractDataStructure.read
        { n := 200000, cold_reads := 20, cold_writes := 5, hot_reads := 2,
          hot_writes := 1, storage := List.range 200000 } 1 3 4 ∧
    Synthetic.AbstractDataStructure.write
        { n := 200000, cold_reads := 20, cold_writes := 5, hot_reads := 2,
          hot_writes := 1, storage := List.range 200000 } 1 3 4 =
      Synthetic.AbstractDataStructure.write
        { n := 200000, cold_reads := 20, cold_writes := 5, hot_reads := 2,
          hot_writes := 1, storage := List.range 200000 } 1 3 4 :=
  claim_c1_default_read_write_bounds 1 3 4
    { n := 200000, cold_reads := 20, cold_writes := 5, hot_reads := 2,
      hot_writes := 1, storage := List.range 200000 } rfl

/-- A sum of nonnegative rationals is nonnegative. -/
theorem qlist_sum_nonneg (l : List ℚ) (h : ∀ x ∈ l, 0 ≤ x) : 0 ≤ l.sum := by
  induction l with
  | nil => simp
  | cons a t ih =>
    simp only [List.sum_cons]
    have ha := h a (List.mem_cons_self a t)
    have ht := ih (fun x hx => h x (List.mem_cons_of_mem a hx))
    linarith

/-- A sum of nonnegative rationals vanishes exactly when every term does. -/
theorem qlist_sum_eq_zero_iff (l : List ℚ) (h : ∀ x ∈ l, 0 ≤ x) :
    l.sum = 0 ↔ ∀ x ∈ l, x = 0 := by
  induction l with
  | nil => simp
  | cons a t ih =>
    have ha := h a (List.mem_cons_self a t)
    have ht : ∀ x ∈ t, 0 ≤ x := fun x hx => h x (List.mem_cons_of_mem a hx)
    have hts := qlist_sum_nonneg t ht
    simp only [List.sum_cons, List.mem_cons]
    constructor
    · intro h0
      have ha0 : a = 0 := by linarith
      have hsum0 : t.sum = 0 := by linarith
      intro x hx
      rcases hx with rfl | hx
      · exact ha0
      · exact ((ih ht).mp hsum0) x hx
    · intro hall
      have h1 : a = 0 := hall a (Or.inl rfl)
      have h2 : t.sum = 0 := (ih ht).mpr (fun x hx => hall x (Or.inr hx))
      rw [h1, h2, add_zero]

/-- Casting a sum of naturals all equal to `c` gives `length * c`. -/
theorem const_cast_sum (data : List Nat) (c : Nat) (h : ∀ x ∈ data, x = c) :
    (data.sum : ℚ) = (data.length : ℚ) * (c : ℚ) := by
  induction data with
  | nil => simp
  | cons a t ih =>
    have ha : a = c := h a (List.mem_cons_self a t)
    have ht := ih (fun x hx => h x (List.mem_cons_of_mem a hx))
    simp only [List.sum_cons, List.length_cons]
    push_cast
    push_cast at ht
    rw [ht, ha]
    ring

/-- On a non-empty sample list, `mean` is the cast sum over the length. -/
theorem benchutils_mean_eq (data : List Nat) (h : data ≠ []) :
    BenchUtils.mean data = some ((data.sum : ℚ) / (data.length : ℚ)) := by
  have hlenpos : 0 < data.length := List.length_pos.mpr h
  unfold BenchUtils.mean
  show (if 0 < data.length then some ((data.sum : ℚ) / (data.length : ℚ)) else none) = _
  rw [if_pos hlenpos]

/-- On a non-empty sample list, `std_deviation` is the square root of the
population variance, the sum of the squared deviations over the length. -/
theorem benchutils_std_eq (data : List Nat) (h : data ≠ []) :
    BenchUtils.std_deviation data =
      some (Real.sqrt ((((BenchUtils.sqDiffs data).sum / (data.length : ℚ) : ℚ) : ℝ))) := by
  have hlenpos : 0 < data.length := List.length_pos.mpr h
  have hmean := benchutils_mean_eq data h
  unfold BenchUtils.std_deviation
  rw [hmean]
  show (if 0 < data.length then
      some (Real.sqrt ((((BenchUtils.sqDiffs data).sum / (data.length : ℚ) : ℚ) : ℝ)))
    else none) = _
  rw [if_pos hlenpos]

/-- Every element of a non-empty sample list casts to the mean exactly when
all elements of the list are equal. -/
theorem mean_diff_zero_iff (data : List Nat) (h : data ≠ []) :
    (∀ v ∈ data, (v : ℚ) = (data.sum : ℚ) / (data.length : ℚ)) ↔
    (∀ x ∈ data, ∀ y ∈ data, x = y) := by
  constructor
  · intro hm x hx y hy
    have hxm := hm x hx
    have hym := hm y hy
    have hxy : (x : ℚ) = (y : ℚ) := by rw [hxm, hym]
    exact_mod_cast hxy
  · intro hall v hv
    obtain ⟨a, ha⟩ := List.exists_mem_of_ne_nil data h
    have hva : v = a := hall v hv a ha
    have hconst : ∀ x ∈ data, x = a := fun x hx => hall x hx a ha
    have hsum : (data.sum : ℚ) = (data.length : ℚ) * (a : ℚ) :=
      const_cast_sum data a hconst
    have hlen : ((data.length : ℚ)) ≠ 0 := by
      have := List.length_pos.mpr h
      exact_mod_cast Nat.pos_iff_ne_zero.mp this
    rw [hva, hsum, mul_comm, mul_div_assoc, div_self hlen, mul_one]

/-- In the exact-arithmetic model of `std_deviation` (`f64` idealised as
ℚ/ℝ), every non-empty sequence of unsigned integers has a standard
deviation, it is non-negative, and it is zero exactly when all elements are
equal.  This is the intended mathematical behaviour of the source; the
program's IEEE `f64` evaluation departs from it for samples at or above
`2 ^ 53`, where the `usize → f64` casts round (see the failing-input
theorem below). -/
theorem std_deviation_exact_nonneg_zero_iff (data : List Nat) (hne : data ≠ []) :
    ∃ r : ℝ, BenchUtils.std_deviation data = some r ∧ 0 ≤ r ∧
      (r = 0 ↔ ∀ x ∈ data, ∀ y ∈ data, x = y) := by
  have hlenpos : 0 < data.length := List.length_pos.mpr hne
  have hlenq : (0:ℚ) < (data.length : ℚ) := by exact_mod_cast hlenpos
  have hsq_nonneg : ∀ x ∈ BenchUtils.sqDiffs data, 0 ≤ x := by
    intro x hx
    simp only [BenchUtils.sqDiffs, List.mem_map] at hx
    obtain ⟨w, _, rfl⟩ := hx
    exact mul_self_nonneg _
  have hsum_nonneg : 0 ≤ (BenchUtils.sqDiffs data).sum :=
    qlist_sum_nonneg _ hsq_nonneg
  have hvq_nonneg : (0:ℚ) ≤ (BenchUtils.sqDiffs data).sum / (data.length : ℚ) :=
    div_nonneg hsum_nonneg hlenq.le
  have hvr_nonneg : (0:ℝ) ≤ (((BenchUtils.sqDiffs data).sum / (data.length : ℚ) : ℚ) : ℝ) := by
    exact_mod_cast hvq_nonneg
  refine ⟨Real.sqrt ((((BenchUtils.sqDiffs data).sum / (data.length : ℚ) : ℚ) : ℝ)),
    benchutils_std_eq data hne, Real.sqrt_nonneg _, ?_⟩
  rw [Real.sqrt_eq_zero hvr_nonneg, Rat.cast_eq_zero, div_eq_zero_iff]
  constructor
  · rintro (hs | hl)
    · have hall0 := (qlist_sum_eq_zero_iff _ hsq_nonneg).mp hs
      have hm : ∀ v ∈ data, (v : ℚ) = (data.sum : ℚ) / (data.length : ℚ) := by
        intro v hv
        have hmem : (((data.sum : ℚ) / (data.length : ℚ) - (v : ℚ)) *
            ((data.sum : ℚ) / (data.length : ℚ) - (v : ℚ))) ∈ BenchUtils.sqDiffs data :=
          List.mem_map.mpr ⟨v, hv, rfl⟩
        have h1 := hall0 _ hmem
        have h2 := mul_self_eq_zero.mp h1
        linarith
      exact (mean_diff_zero_iff data hne).mp hm
    · exact absurd hl hlenq.ne'
  · intro hall
    left
    apply (qlist_sum_eq_zero_iff _ hsq_nonneg).mpr
    intro x hx
    obtain ⟨w, hw, hfw⟩ := List.mem_map.mp hx
    have hwm : (w : ℚ) = (data.sum : ℚ) / (data.length : ℚ) :=
      (mean_diff_zero_iff data hne).mpr hall w hw
    rw [← hfw]
    show ((data.sum : ℚ) / (data.length : ℚ) - (w : ℚ)) *
        ((data.sum : ℚ) / (data.length : ℚ) - (w : ℚ)) = 0
    rw [hwm, sub_self, mul_zero]

/-- Claim C3 (failing input `[2 ^ 60, 2 ^ 60 + 1]`): the two samples are
unequal, so the claim demands a nonzero standard deviation, and in exact
arithmetic `std_deviation` indeed answers a strictly positive value
(√(1/4) = 1/2).  The program's IEEE `f64` evaluation instead returns
`Some(0.0)` at this input: `sum as f64` rounds `2 ^ 61 + 1` to `2 ^ 61`, so
`data_mean` is exactly `2 ^ 60`, and `(*value as f64)` rounds `2 ^ 60 + 1`
to `2 ^ 60` as well, making every computed deviation `0.0`.  The code
therefore falls short of the claimed iff for samples at or above `2 ^ 53`. -/
theorem claim_c3_failing_input :
    ¬ (∀ x ∈ ([2 ^ 60, 2 ^ 60 + 1] : List Nat),
        ∀ y ∈ ([2 ^ 60, 2 ^ 60 + 1] : List Nat), x = y) ∧
    ∃ r : ℝ, BenchUtils.std_deviation [2 ^ 60, 2 ^ 60 + 1] = some r ∧ 0 < r := by
  have hne : ([2 ^ 60, 2 ^ 60 + 1] : List Nat) ≠ [] := by simp
  have hun : ¬ (∀ x ∈ ([2 ^ 60, 2 ^ 60 + 1] : List Nat),
      ∀ y ∈ ([2 ^ 60, 2 ^ 60 + 1] : List Nat), x = y) := by
    intro hall
    have h := hall (2 ^ 60) (by simp) (2 ^ 60 + 1) (by simp)
    omega
  obtain ⟨r, hsome, hnonneg, hiff⟩ :=
    std_deviation_exact_nonneg_zero_iff [2 ^ 60, 2 ^ 60 + 1] hne
  refine ⟨hun, r, hsome, ?_⟩
  rcases eq_or_lt_of_le hnonneg with h0 | h0
  · exact absurd (hiff.mp h0.symm) hun
  · exact h0

/-- Claim C4: `mean` and `std_deviation` both answer "no value" on the empty
sequence instead of faulting or dividing by zero, and both answer a value on
every non-empty sequence. -/
theorem claim_c4_empty_none_nonempty_some :
    BenchUtils.mean [] = none ∧ BenchUtils.std_deviation [] = none ∧
    ∀ data : List Nat, data ≠ [] →
      (BenchUtils.mean data).isSome = true ∧
      (BenchUtils.std_deviation data).isSome = true := by
  refine ⟨rfl, rfl, ?_⟩
  intro data hne
  constructor
  · rw [benchutils_mean_eq data hne]
    rfl
  · rw [benchutils_std_eq data hne]
    rfl

/-- Witness for claim C4 at the concrete non-empty sample list `[1]`. -/
theorem claim_c4_witness :
    (BenchUtils.mean [1]).isSome = true ∧
    (BenchUtils.std_deviation [1]).isSome = true :=
  claim_c4_empty_none_nonempty_some.2.2 [1] (by decide)
